import Mathlib

/-!
Shallow embedding of the lazy project grid of this repository:
`src/components/shared/LazyProjectGrid.tsx` (the grid controller and the
per-item lazy wrapper) and `src/app/projects/page.tsx` (the page
composition). Indices and configuration values are JS numbers holding
integers, embedded as `ℤ`; the `Set<number>` of loaded indices is a
`Finset ℤ`.
-/

set_option autoImplicit false

namespace Portfolio

/-! ## Per-item lazy wrapper (`LazyProjectItem`) -/

/-- Local state of `LazyProjectItem`: the one-shot
`hasBeenVisible` flag, from `useState(false)`. -/
structure ItemState where
  hasBeenVisible : Bool
deriving DecidableEq

/-- `handleIntersection` of `LazyProjectItem`: on an intersection event,
if intersecting and the flag is not yet set, set the flag and fire
`onVisible(index)`. Returns the new state and whether `onVisible` fired. -/
def handleIntersection (s : ItemState) (isIntersecting : Bool) : ItemState × Bool :=
  if isIntersecting && !s.hasBeenVisible then (⟨true⟩, true) else (s, false)

/-- Fold a sequence of intersection events through `handleIntersection`,
counting how many times `onVisible` fired. -/
def runIntersections (s : ItemState) : List Bool → ItemState × Nat
  | [] => (s, 0)
  | e :: rest =>
    let step := handleIntersection s e
    let tail := runIntersections step.1 rest
    (tail.1, (if step.2 then 1 else 0) + tail.2)

/-- What `LazyProjectItem` renders for the card slot. -/
inductive ItemRender
  | realCard
  | skeleton
deriving DecidableEq

/-- The render decision of `LazyProjectItem`:
`isLoaded || hasBeenVisible ? <ProjectCard/> : <ProjectCardSkeleton/>`. -/
def renderItem (isLoaded hasBeenVisible : Bool) : ItemRender :=
  if isLoaded || hasBeenVisible then ItemRender.realCard else ItemRender.skeleton

/-! ## Grid controller (`LazyProjectGrid`) -/

/-- A deferred batch expansion scheduled by `setTimeout` inside
`handleItemVisible`; the closure captures the triggering `index`, the
`batchSize` prop and `projects.length` at scheduling time. -/
structure PendingBatch where
  index : ℤ
  batchSize : ℤ
  listLength : ℤ
deriving DecidableEq

/-- The grid controller's state: `loadedItems : Set<number>`,
`loadedCount : number`, `isLoading : boolean`, plus the queue of
scheduled-but-not-yet-fired deferred batch expansions (all timers use the
same 100 ms delay, so they fire in FIFO order). -/
structure GridState where
  loadedItems : Finset ℤ
  loadedCount : Nat
  isLoading : Bool
  pending : List PendingBatch
deriving DecidableEq

/-- State before the mount effect runs: `new Set()`, `0`, `false`, no timers. -/
def initialState : GridState := ⟨∅, 0, false, []⟩

/-- The initial-items set of the mount effect:
`new Set(Array.from({ length: Math.min(initialLoad, projects.length) }, (_, i) => i))`,
i.e. the naturals below `min initialLoad listLength` (empty when that
minimum is not positive, as `Array.from` produces no elements then). -/
def initialItems (initialLoad listLength : ℤ) : Finset ℤ :=
  (Finset.range (min initialLoad listLength).toNat).image (fun k : ℕ => (k : ℤ))

/-- The `useEffect` keyed on `[projects.length, initialLoad]`: resets
`loadedItems` to the initial items and `loadedCount` to their number.
`isLoading` and any scheduled timers are untouched. -/
def applyInit (s : GridState) (listLength initialLoad : ℤ) : GridState :=
  { s with
    loadedItems := initialItems initialLoad listLength,
    loadedCount := (initialItems initialLoad listLength).card }

/-- The index window added by the deferred batch loop:
`for (let i = Math.max(0, index - batchSize); i <= Math.min(length - 1, index + batchSize); i++)`. -/
def batchWindow (index batchSize listLength : ℤ) : Finset ℤ :=
  Finset.Icc (max 0 (index - batchSize)) (min (listLength - 1) (index + batchSize))

/-- Body of the `setTimeout` callback acting on the loaded set: union the
current set with the captured window. -/
def applyBatch (loaded : Finset ℤ) (p : PendingBatch) : Finset ℤ :=
  loaded ∪ batchWindow p.index p.batchSize p.listLength

/-- `handleItemVisible(index)`: if the index is already loaded, nothing
happens; otherwise it is inserted, `loadedCount` is set to the new set's
size and, when `enableVirtualization` holds, `isLoading` is raised and a
deferred batch expansion is scheduled. -/
def handleItemVisible (s : GridState) (index batchSize listLength : ℤ)
    (enableVirtualization : Bool) : GridState :=
  if index ∈ s.loadedItems then s
  else if enableVirtualization then
    { loadedItems := insert index s.loadedItems,
      loadedCount := (insert index s.loadedItems).card,
      isLoading := true,
      pending := s.pending ++ [⟨index, batchSize, listLength⟩] }
  else
    { s with
      loadedItems := insert index s.loadedItems,
      loadedCount := (insert index s.loadedItems).card }

/-- The earliest scheduled `setTimeout` callback fires: the captured
window is unioned into the loaded set and `isLoading` is cleared.
`loadedCount` is not touched by this callback. Firing with no timer
scheduled is a no-op. -/
def fireTimer (s : GridState) : GridState :=
  match s.pending with
  | [] => s
  | p :: rest =>
    { s with
      loadedItems := applyBatch s.loadedItems p,
      isLoading := false,
      pending := rest }

/-- An event in the lifetime of a mounted grid: the (re-)initialization
effect firing with the current `projects.length` and `initialLoad`, a
visibility notification carrying the props current at that moment, or the
earliest deferred batch timer firing. -/
inductive GridEvent
  | reinit (listLength initialLoad : ℤ)
  | visible (index batchSize listLength : ℤ) (enableVirtualization : Bool)
  | timerFire
deriving DecidableEq

/-- One event step of the grid controller. -/
def step (s : GridState) : GridEvent → GridState
  | GridEvent.reinit L N => applyInit s L N
  | GridEvent.visible i b L v => handleItemVisible s i b L v
  | GridEvent.timerFire => fireTimer s

/-- Run a sequence of events from a state. -/
def run (s : GridState) (trace : List GridEvent) : GridState :=
  trace.foldl step s

/-- Well-formedness of an event for a grid whose displayed list has
length `L`: every event carries `L` as its list length, and visibility
notifications only come from rendered items, whose indices lie in
`[0, L)` (the grid renders one wrapper per list position). -/
def eventOk (L : ℤ) : GridEvent → Bool
  | GridEvent.reinit L' _ => decide (L' = L)
  | GridEvent.visible i _ L' _ => decide (L' = L) && decide (0 ≤ i) && decide (i < L)
  | GridEvent.timerFire => true

/-- Whether an event is a (re-)initialization. -/
def isReinit : GridEvent → Bool
  | GridEvent.reinit _ _ => true
  | _ => false

/-- Number of `VirtualPlaceholder` blocks rendered below the grid:
`isLoading && enableVirtualization` guards a row of
`Array.from({ length: batchSize })` placeholders. -/
def placeholderCount (isLoading enableVirtualization : Bool) (batchSize : ℤ) : Nat :=
  if isLoading && enableVirtualization then batchSize.toNat else 0

/-! ## Basic lemmas about the grid operations -/

theorem mem_initialItems (N L j : ℤ) :
    j ∈ initialItems N L ↔ 0 ≤ j ∧ j < min N L := by
  simp only [initialItems, Finset.mem_image, Finset.mem_range]
  constructor
  · rintro ⟨k, hk, rfl⟩
    omega
  · rintro ⟨h0, h1⟩
    exact ⟨j.toNat, by omega, by omega⟩

theorem card_initialItems (N L : ℤ) :
    (initialItems N L).card = (min N L).toNat := by
  rw [initialItems, Finset.card_image_of_injective _ (fun a b h => by exact_mod_cast h)]
  exact Finset.card_range _

theorem loadedItems_applyInit (s : GridState) (L N : ℤ) :
    (applyInit s L N).loadedItems = initialItems N L := rfl

theorem loadedCount_applyInit (s : GridState) (L N : ℤ) :
    (applyInit s L N).loadedCount = (initialItems N L).card := rfl

theorem handleItemVisible_of_mem (s : GridState) (i b L : ℤ) (v : Bool)
    (h : i ∈ s.loadedItems) : handleItemVisible s i b L v = s := by
  simp [handleItemVisible, h]

theorem loadedItems_handleItemVisible (s : GridState) (i b L : ℤ) (v : Bool) :
    (handleItemVisible s i b L v).loadedItems =
      if i ∈ s.loadedItems then s.loadedItems else insert i s.loadedItems := by
  by_cases h : i ∈ s.loadedItems <;> cases v <;> simp [handleItemVisible, h]

theorem subset_handleItemVisible (s : GridState) (i b L : ℤ) (v : Bool) :
    s.loadedItems ⊆ (handleItemVisible s i b L v).loadedItems := by
  rw [loadedItems_handleItemVisible]
  by_cases h : i ∈ s.loadedItems
  · simp [h]
  · simp only [h, if_false]
    exact Finset.subset_insert _ _

theorem subset_fireTimer (s : GridState) :
    s.loadedItems ⊆ (fireTimer s).loadedItems := by
  cases hp : s.pending with
  | nil => simp [fireTimer, hp]
  | cons p rest =>
    simp only [fireTimer, hp]
    exact Finset.subset_union_left

theorem batchWindow_subset_fireTimer (s : GridState) (p : PendingBatch)
    (rest : List PendingBatch) (hp : s.pending = p :: rest) :
    batchWindow p.index p.batchSize p.listLength ⊆ (fireTimer s).loadedItems := by
  simp only [fireTimer, hp, applyBatch]
  exact Finset.subset_union_right

theorem pending_handleItemVisible_of_not_mem (s : GridState) (i b L : ℤ)
    (h : i ∉ s.loadedItems) :
    (handleItemVisible s i b L true).pending = s.pending ++ [⟨i, b, L⟩] := by
  simp [handleItemVisible, h]

theorem loadedCount_fireTimer (s : GridState) :
    (fireTimer s).loadedCount = s.loadedCount := by
  cases hp : s.pending <;> simp [fireTimer, hp]

/-! ## Trace invariant: all tracked indices stay within the list bounds -/

/-- Invariant tied to a displayed list of length `L`: every loaded index
lies in `[0, L)` and every scheduled batch expansion was captured with an
in-bounds trigger index and with list length `L`. -/
def stateOk (L : ℤ) (s : GridState) : Prop :=
  (∀ j ∈ s.loadedItems, 0 ≤ j ∧ j < L) ∧
  (∀ p ∈ s.pending, 0 ≤ p.index ∧ p.index < L ∧ p.listLength = L)

theorem stateOk_initialState (L : ℤ) : stateOk L initialState := by
  constructor
  · intro j hj
    simp [initialState] at hj
  · intro p hp
    simp [initialState] at hp

theorem mem_batchWindow_bounds (i b L j : ℤ) (hj : j ∈ batchWindow i b L) :
    0 ≤ j ∧ j < L := by
  rw [batchWindow, Finset.mem_Icc] at hj
  omega

theorem pending_handleItemVisible_false (s : GridState) (i b L : ℤ) :
    (handleItemVisible s i b L false).pending = s.pending := by
  by_cases h : i ∈ s.loadedItems <;> simp [handleItemVisible, h]

theorem stateOk_applyInit (L : ℤ) (s : GridState) (N : ℤ) (hs : stateOk L s) :
    stateOk L (applyInit s L N) := by
  refine ⟨?_, hs.2⟩
  intro j hj
  rw [loadedItems_applyInit, mem_initialItems] at hj
  omega

theorem stateOk_handleItemVisible (L : ℤ) (s : GridState) (i b : ℤ) (v : Bool)
    (hs : stateOk L s) (hi0 : 0 ≤ i) (hiL : i < L) :
    stateOk L (handleItemVisible s i b L v) := by
  by_cases h : i ∈ s.loadedItems
  · rw [handleItemVisible_of_mem s i b L v h]
    exact hs
  · constructor
    · intro j hj
      rw [loadedItems_handleItemVisible, if_neg h, Finset.mem_insert] at hj
      rcases hj with rfl | hj
      · exact ⟨hi0, hiL⟩
      · exact hs.1 j hj
    · intro p hp
      cases v with
      | false =>
        rw [pending_handleItemVisible_false] at hp
        exact hs.2 p hp
      | true =>
        rw [pending_handleItemVisible_of_not_mem s i b L h, List.mem_append] at hp
        rcases hp with hp | hp
        · exact hs.2 p hp
        · simp only [List.mem_singleton] at hp
          subst hp
          exact ⟨hi0, hiL, rfl⟩

theorem stateOk_fireTimer (L : ℤ) (s : GridState) (hs : stateOk L s) :
    stateOk L (fireTimer s) := by
  cases hp : s.pending with
  | nil =>
    rw [show fireTimer s = s by simp [fireTimer, hp]]
    exact hs
  | cons p rest =>
    constructor
    · intro j hj
      simp only [fireTimer, hp, applyBatch, Finset.mem_union] at hj
      rcases hj with hj | hj
      · exact hs.1 j hj
      · have hpok := hs.2 p (by simp [hp])
        have hb := mem_batchWindow_bounds p.index p.batchSize p.listLength j hj
        omega
    · intro q hq
      simp only [fireTimer, hp] at hq
      exact hs.2 q (by simp [hp, hq])

theorem stateOk_step (L : ℤ) (s : GridState) (e : GridEvent)
    (hs : stateOk L s) (he : eventOk L e = true) : stateOk L (step s e) := by
  cases e with
  | reinit L' N =>
    simp only [eventOk, decide_eq_true_eq] at he
    show stateOk L (applyInit s L' N)
    rw [he]
    exact stateOk_applyInit L s N hs
  | visible i b L' v =>
    simp only [eventOk, Bool.and_eq_true, decide_eq_true_eq] at he
    show stateOk L (handleItemVisible s i b L' v)
    rw [he.1.1]
    exact stateOk_handleItemVisible L s i b v hs he.1.2 he.2
  | timerFire =>
    exact stateOk_fireTimer L s hs

theorem stateOk_run (L : ℤ) (s : GridState) (trace : List GridEvent)
    (hs : stateOk L s) (hwf : ∀ e ∈ trace, eventOk L e = true) :
    stateOk L (run s trace) := by
  induction trace generalizing s with
  | nil => exact hs
  | cons e rest ih =>
    have h1 : eventOk L e = true := hwf e (by simp)
    have h2 : ∀ e' ∈ rest, eventOk L e' = true := fun e' he' => hwf e' (by simp [he'])
    exact ih (step s e) (stateOk_step L s e hs h1) h2

theorem subset_step_of_not_reinit (s : GridState) (e : GridEvent)
    (he : isReinit e = false) : s.loadedItems ⊆ (step s e).loadedItems := by
  cases e with
  | reinit L N => simp [isReinit] at he
  | visible i b L v => exact subset_handleItemVisible s i b L v
  | timerFire => exact subset_fireTimer s

theorem subset_run_of_no_reinit (s : GridState) (trace : List GridEvent)
    (hni : ∀ e ∈ trace, isReinit e = false) :
    s.loadedItems ⊆ (run s trace).loadedItems := by
  induction trace generalizing s with
  | nil => exact Finset.Subset.refl _
  | cons e rest ih =>
    have h1 : isReinit e = false := hni e (by simp)
    have h2 : ∀ e' ∈ rest, isReinit e' = false := fun e' he' => hni e' (by simp [he'])
    exact Finset.Subset.trans (subset_step_of_not_reinit s e h1) (ih (step s e) h2)

/-! ## Page composition (`src/app/projects/page.tsx`) -/

/-- Modelled from the spec: the category tag of a `Project`. The file
`src/types/project.ts` defining the `Project` type is not part of the
sources here; the spec describes the tag as "a category tag (used to
partition into two display groups)", the two groups being the page's
"ui" and "system" sections. -/
inductive ProjectType
  | ui
  | system
deriving DecidableEq

/-- Modelled from the spec: a `Project` record, "an opaque record with at
least a unique slug (identity key), a category tag"; only those two fields
matter to the embedded logic. -/
structure Project where
  slug : String
  type : ProjectType
deriving DecidableEq

/-- `projects.filter((project) => project.type === "ui")`. -/
def uiProjects (projects : List Project) : List Project :=
  projects.filter (fun p => decide (p.type = ProjectType.ui))

/-- `projects.filter((project) => project.type === "system")`. -/
def systemProjects (projects : List Project) : List Project :=
  projects.filter (fun p => decide (p.type = ProjectType.system))

/-- What one category section of the page renders: the static
"no projects" paragraph, or a Suspense-wrapped `LazyProjectGrid`
mounted on the given sublist. -/
inductive SectionRender
  | noProjectsText (message : String)
  | grid (projects : List Project)
deriving DecidableEq

/-- One section of the page:
`subset.length === 0 ? <p>…</p> : <Suspense…><LazyProjectGrid projects={subset}/></Suspense>`. -/
def renderSection (message : String) (subset : List Project) : SectionRender :=
  if subset.length = 0 then SectionRender.noProjectsText message
  else SectionRender.grid subset

/-- What `ProjectsPage` returns: the inline error panel, or the content
view with its two category sections. -/
inductive PageRender
  | errorPanel (message : String)
  | content (uiSection systemSection : SectionRender)
deriving DecidableEq

/-- A JS value thrown by `fetchProjects`: an `Error` instance carrying a
message, or any other thrown value. -/
inductive ThrownValue
  | errorInstance (message : String)
  | nonError
deriving DecidableEq

/-- `err instanceof Error ? err.message : "An unknown error occurred"`. -/
def caughtMessage : ThrownValue → String
  | ThrownValue.errorInstance msg => msg
  | ThrownValue.nonError => "An unknown error occurred"

/-- JS truthiness of the `error : string | null` variable as used in
`if (error)`: `null` and the empty string are falsy. -/
def errorTruthy : Option String → Bool
  | none => false
  | some s => decide (s ≠ "")

/-- `ProjectsPage`: `projects` starts as `[]` and `error` as `null`; a
throw from `fetchProjects` is caught and stored as a message; if `error`
is truthy the error panel is returned, otherwise the content view over
the two category filters of `projects`. -/
def renderProjectsPage (fetchResult : Except ThrownValue (List Project)) : PageRender :=
  let projects : List Project :=
    match fetchResult with
    | Except.ok ps => ps
    | Except.error _ => []
  let error : Option String :=
    match fetchResult with
    | Except.ok _ => none
    | Except.error e => some (caughtMessage e)
  if errorTruthy error then PageRender.errorPanel (error.getD "")
  else
    PageRender.content
      (renderSection "No UI projects found." (uiProjects projects))
      (renderSection "No system projects found." (systemProjects projects))

/-- Whether a page render mounts at least one `LazyProjectGrid`. -/
def mountsAnyGrid : PageRender → Bool
  | PageRender.content (SectionRender.grid _) _ => true
  | PageRender.content _ (SectionRender.grid _) => true
  | _ => false

/-! ## Lemma for the per-item wrapper -/

theorem runIntersections_count (events : List Bool) (s : ItemState) :
    (runIntersections s events).2 =
      if s.hasBeenVisible then 0 else if true ∈ events then 1 else 0 := by
  induction events generalizing s with
  | nil => simp [runIntersections]
  | cons e rest ih =>
    obtain ⟨flag⟩ := s
    cases flag <;> cases e <;>
      simp [runIntersections, handleIntersection, ih]

/-! ## Claims -/

/-- C1: after initialize or re-initialize with list length `L` and
initial-load `N`, the loaded set is exactly `{0, …, min(N, L) - 1}`
(empty when the minimum is 0), the loaded count is `min(N, L)`, and the
result is independent of whatever state — including prior batch
expansions — was there before. -/
theorem init_resets_loaded_state (s : GridState) (L N : ℤ)
    (hL : 0 ≤ L) (hN : 0 ≤ N) :
    (∀ j : ℤ, j ∈ (applyInit s L N).loadedItems ↔ 0 ≤ j ∧ j < min N L) ∧
    ((applyInit s L N).loadedCount : ℤ) = min N L ∧
    (∀ s' : GridState,
      (applyInit s' L N).loadedItems = (applyInit s L N).loadedItems ∧
      (applyInit s' L N).loadedCount = (applyInit s L N).loadedCount) := by
  refine ⟨fun j => mem_initialItems N L j, ?_, fun s' => ⟨rfl, rfl⟩⟩
  rw [loadedCount_applyInit, card_initialItems]
  omega

theorem init_resets_loaded_state_witness :
    ((applyInit initialState 10 3).loadedCount : ℤ) = min 3 10 :=
  (init_resets_loaded_state initialState 10 3 (by decide) (by decide)).2.1

/-- C2: over any event trace of a grid displaying a list of length `L`
(every event carries `L`, and visibility events carry indices of rendered
items, hence in `[0, L)`), every member of the loaded set stays in
`[0, L)`; a visibility event at a fresh index with virtualization on
schedules a batch expansion capturing that index, the batch size and `L`;
and when a scheduled expansion fires, the loaded set becomes a superset
of the clamped window it captured. -/
theorem batch_bounds_and_window (L : ℤ) (trace : List GridEvent)
    (hwf : ∀ e ∈ trace, eventOk L e = true) :
    (∀ j ∈ (run initialState trace).loadedItems, 0 ≤ j ∧ j < L) ∧
    (∀ (s : GridState) (i b : ℤ), i ∉ s.loadedItems →
      (handleItemVisible s i b L true).pending = s.pending ++ [⟨i, b, L⟩]) ∧
    (∀ (s : GridState) (p : PendingBatch) (rest : List PendingBatch),
      s.pending = p :: rest →
      batchWindow p.index p.batchSize p.listLength ⊆ (fireTimer s).loadedItems) :=
  ⟨(stateOk_run L initialState trace (stateOk_initialState L) hwf).1,
    fun s i b h => pending_handleItemVisible_of_not_mem s i b L h,
    fun s p rest hp => batchWindow_subset_fireTimer s p rest hp⟩

theorem batch_bounds_and_window_witness :
    0 ≤ (3 : ℤ) ∧ (3 : ℤ) < 10 :=
  (batch_bounds_and_window 10
      [GridEvent.reinit 10 3, GridEvent.visible 5 2 10 true, GridEvent.timerFire]
      (by decide)).1 3 (by decide)

/-- C3: `handleItemVisible` is idempotent — a second call with the same
index returns the state of the first call unchanged — and on an index
that is already loaded it is a complete no-op: same set, same count, same
flag, and no batch expansion scheduled. -/
theorem handleItemVisible_idem (s : GridState) (i b L : ℤ) (v : Bool) :
    handleItemVisible (handleItemVisible s i b L v) i b L v =
      handleItemVisible s i b L v ∧
    (i ∈ s.loadedItems → handleItemVisible s i b L v = s) := by
  constructor
  · have hmem : i ∈ (handleItemVisible s i b L v).loadedItems := by
      rw [loadedItems_handleItemVisible]
      by_cases h : i ∈ s.loadedItems
      · simp [h]
      · simp [h]
    exact handleItemVisible_of_mem _ i b L v hmem
  · exact handleItemVisible_of_mem s i b L v

theorem handleItemVisible_idem_witness :
    handleItemVisible (applyInit initialState 10 3) 0 3 10 false =
      applyInit initialState 10 3 :=
  (handleItemVisible_idem (applyInit initialState 10 3) 0 3 10 false).2 (by decide)

/-- C4 counterexample: run `init(L = 10, N = 3)`, then `visible(5)` with
`batchSize = 2` and virtualization on, then let the deferred expansion
fire: the loaded set has 8 elements but the loaded count is still 4,
because the deferred expansion never updates the count. -/
theorem count_diverges_after_batch :
    (run initialState [GridEvent.reinit 10 3, GridEvent.visible 5 2 10 true,
        GridEvent.timerFire]).loadedCount = 4 ∧
    (run initialState [GridEvent.reinit 10 3, GridEvent.visible 5 2 10 true,
        GridEvent.timerFire]).loadedItems.card = 8 := by
  decide

/-- C4 amended: the loaded count equals the loaded set's cardinality
after initialization and is kept equal by `handleItemVisible`, but the
deferred batch expansion leaves the count unchanged while possibly
growing the set, so the equality can be broken by an expansion. -/
theorem count_tracks_card_amended (s : GridState) (L N i b : ℤ) (v : Bool)
    (hc : s.loadedCount = s.loadedItems.card) :
    (applyInit s L N).loadedCount = (applyInit s L N).loadedItems.card ∧
    (handleItemVisible s i b L v).loadedCount =
      (handleItemVisible s i b L v).loadedItems.card ∧
    (fireTimer s).loadedCount = s.loadedCount := by
  refine ⟨rfl, ?_, loadedCount_fireTimer s⟩
  by_cases h : i ∈ s.loadedItems
  · rw [handleItemVisible_of_mem s i b L v h]
    exact hc
  · cases v <;> simp [handleItemVisible, h]

theorem count_tracks_card_amended_witness :
    (fireTimer initialState).loadedCount = initialState.loadedCount :=
  (count_tracks_card_amended initialState 10 3 0 3 false (by decide)).2.2

/-- C5 counterexample: after `init(10, 3)` and `visible(5)`, index 5 is
loaded; a re-initialization (here triggered by `initialLoad` changing
from 3 to 4) resets the set to `{0, 1, 2, 3}`, removing index 5 — so
re-initialization does remove indices from the set. -/
theorem reinit_removes_index :
    5 ∈ (run initialState [GridEvent.reinit 10 3,
        GridEvent.visible 5 3 10 false]).loadedItems ∧
    5 ∉ (run initialState [GridEvent.reinit 10 3,
        GridEvent.visible 5 3 10 false, GridEvent.reinit 10 4]).loadedItems := by
  decide

/-- C5 amended: `handleItemVisible` and the deferred batch expansion
never remove an index, so over any stretch of the lifetime containing no
re-initialization the loaded set only grows and its size never decreases;
re-initialization, however, is a full reset and can remove indices. -/
theorem loaded_set_monotone_amended (s : GridState) (i b L : ℤ) (v : Bool)
    (trace : List GridEvent) (hni : ∀ e ∈ trace, isReinit e = false) :
    s.loadedItems ⊆ (handleItemVisible s i b L v).loadedItems ∧
    s.loadedItems ⊆ (fireTimer s).loadedItems ∧
    s.loadedItems ⊆ (run s trace).loadedItems ∧
    s.loadedItems.card ≤ (run s trace).loadedItems.card := by
  have hrun := subset_run_of_no_reinit s trace hni
  exact ⟨subset_handleItemVisible s i b L v, subset_fireTimer s, hrun,
    Finset.card_le_card hrun⟩

theorem loaded_set_monotone_amended_witness :
    (applyInit initialState 10 3).loadedItems.card ≤
      (run (applyInit initialState 10 3)
        [GridEvent.visible 5 2 10 true, GridEvent.timerFire]).loadedItems.card :=
  (loaded_set_monotone_amended (applyInit initialState 10 3) 0 3 10 false
      [GridEvent.visible 5 2 10 true, GridEvent.timerFire] (by decide)).2.2.2

/-- C6: scenario with L = 10, initialLoad = 3, virtualization on,
batchSize = 2: after initialization the set is `{0, 1, 2}`; `visible(5)`
immediately raises `isLoading`, and 2 placeholder blocks (one per unit of
batch size) are rendered while it is raised; after the deferred expansion
fires, the set is `{0, …, 7}` and `isLoading` is false. -/
theorem scenario_virtualized_batch :
    (run initialState [GridEvent.reinit 10 3]).loadedItems =
      ({0, 1, 2} : Finset ℤ) ∧
    (run initialState [GridEvent.reinit 10 3,
        GridEvent.visible 5 2 10 true]).isLoading = true ∧
    placeholderCount (run initialState [GridEvent.reinit 10 3,
        GridEvent.visible 5 2 10 true]).isLoading true 2 = 2 ∧
    (run initialState [GridEvent.reinit 10 3, GridEvent.visible 5 2 10 true,
        GridEvent.timerFire]).loadedItems = ({0, 1, 2, 3, 4, 5, 6, 7} : Finset ℤ) ∧
    (run initialState [GridEvent.reinit 10 3, GridEvent.visible 5 2 10 true,
        GridEvent.timerFire]).isLoading = false := by
  decide

/-- C7: from a fresh wrapper, `onVisible` fires exactly once when some
intersection event is a transition to visible and never otherwise — in
particular at most once over the wrapper's lifetime; once the local flag
is set, every further visibility toggle is ignored (state unchanged, no
callback); and the real card is rendered exactly when the local flag or
the external `isLoaded` flag is true, the skeleton otherwise. -/
theorem item_one_shot (events : List Bool) (isLoaded flag : Bool) :
    (runIntersections ⟨false⟩ events).2 = (if true ∈ events then 1 else 0) ∧
    (runIntersections ⟨false⟩ events).2 ≤ 1 ∧
    (∀ e : Bool, handleIntersection ⟨true⟩ e = (⟨true⟩, false)) ∧
    (renderItem isLoaded flag = ItemRender.realCard ↔ (isLoaded || flag) = true) := by
  have hc : (runIntersections ⟨false⟩ events).2 = if true ∈ events then 1 else 0 := by
    simpa using runIntersections_count events ⟨false⟩
  refine ⟨hc, ?_, ?_, ?_⟩
  · rw [hc]
    split <;> omega
  · intro e
    cases e <;> simp [handleIntersection]
  · cases isLoaded <;> cases flag <;> simp [renderItem]

/-- C8: on a successful fetch the page splits the fetched list into the
UI and system subsets — together they cover every fetched project and no
project is in both — and renders the content view with one section per
subset; a section mounts a (suspense-wrapped) grid exactly when its
subset is non-empty and shows the static no-projects text exactly when it
is empty. -/
theorem page_partitions_projects (ps : List Project) :
    (∀ p ∈ ps, p ∈ uiProjects ps ∨ p ∈ systemProjects ps) ∧
    (∀ p : Project, ¬(p ∈ uiProjects ps ∧ p ∈ systemProjects ps)) ∧
    renderProjectsPage (Except.ok ps) =
      PageRender.content
        (renderSection "No UI projects found." (uiProjects ps))
        (renderSection "No system projects found." (systemProjects ps)) ∧
    (∀ (msg : String) (l : List Project),
      (renderSection msg l = SectionRender.grid l ↔ l ≠ []) ∧
      (renderSection msg l = SectionRender.noProjectsText msg ↔ l = [])) := by
  refine ⟨?_, ?_, rfl, ?_⟩
  · intro p hp
    cases h : p.type with
    | ui =>
      left
      simp [uiProjects, List.mem_filter, hp, h]
    | system =>
      right
      simp [systemProjects, List.mem_filter, hp, h]
  · rintro p ⟨h1, h2⟩
    rw [uiProjects, List.mem_filter] at h1
    rw [systemProjects, List.mem_filter] at h2
    simp only [decide_eq_true_eq] at h1 h2
    rw [h1.2] at h2
    exact absurd h2.2 (by simp)
  · intro msg l
    cases l <;> simp [renderSection]

theorem page_partitions_projects_witness :
    (⟨"a", ProjectType.ui⟩ : Project) ∈ uiProjects [⟨"a", ProjectType.ui⟩] ∨
    (⟨"a", ProjectType.ui⟩ : Project) ∈ systemProjects [⟨"a", ProjectType.ui⟩] :=
  (page_partitions_projects [⟨"a", ProjectType.ui⟩]).1 ⟨"a", ProjectType.ui⟩ (by simp)

/-- C9 counterexample: a failing fetch that throws an `Error` instance
whose message is the empty string renders the normal content view (with
the empty list's two no-projects texts), not the error panel: the empty
message makes the `error` variable falsy in `if (error)`. -/
theorem empty_message_no_panel :
    renderProjectsPage (Except.error (ThrownValue.errorInstance "")) =
      PageRender.content
        (SectionRender.noProjectsText "No UI projects found.")
        (SectionRender.noProjectsText "No system projects found.") ∧
    renderProjectsPage (Except.error (ThrownValue.errorInstance "")) ≠
      PageRender.errorPanel "" := by
  decide

/-- C9 amended: for every failing fetch throwing an `Error` instance with
a non-empty message, the failure is caught once at the page level and the
message is surfaced verbatim in the static inline error panel; and on
every failing run, whatever was thrown, no grid is mounted (the project
list stays empty, so even the content view of the empty-message case
mounts none). -/
theorem error_panel_verbatim_amended (msg : String) (hmsg : msg ≠ "") :
    renderProjectsPage (Except.error (ThrownValue.errorInstance msg)) =
      PageRender.errorPanel msg ∧
    (∀ t : ThrownValue,
      mountsAnyGrid (renderProjectsPage (Except.error t)) = false) := by
  constructor
  · simp [renderProjectsPage, errorTruthy, caughtMessage, hmsg]
  · intro t
    cases t with
    | errorInstance m =>
      by_cases hm : m = ""
      · subst hm
        decide
      · simp [renderProjectsPage, errorTruthy, caughtMessage, hm, mountsAnyGrid]
    | nonError => decide

theorem error_panel_verbatim_amended_witness :
    renderProjectsPage (Except.error (ThrownValue.errorInstance "boom")) =
      PageRender.errorPanel "boom" :=
  (error_panel_verbatim_amended "boom" (by decide)).1

/-- C10: a failing fetch throwing a value that is not an `Error` instance
renders the fixed fallback message "An unknown error occurred" in the
error panel; the fallback is exactly what the catch clause stores for
non-`Error` values. -/
theorem non_error_fallback :
    renderProjectsPage (Except.error ThrownValue.nonError) =
      PageRender.errorPanel "An unknown error occurred" ∧
    caughtMessage ThrownValue.nonError = "An unknown error occurred" := by
  decide

end Portfolio
